import Mathlib

/-!
Shallow embedding of the change-order submission POC
(`src/lib/change-order-schema.ts`, `src/lib/change-order-store.ts` and the
HTTP route handlers under `src/app/api/change-orders/`).

Modelling conventions:
* JavaScript numbers are embedded as `Rat` (exact arithmetic over the
  arithmetic expressions appearing in the source).
* The platform clock and `Date` parsing are external inputs: functions that
  call `Date.now()` / `new Date().toISOString()` take the current time as an
  explicit parameter (`nowMs : Int` in epoch milliseconds, `nowIso : String`),
  and `new Date(iso).getTime()` is represented by an `Option Int` parse result
  (`none` models `NaN`, i.e. an unparseable timestamp).
* The module-level record store (`globalThis.__changeOrderPocStore`, an array)
  is threaded explicitly as a `List StoredChangeOrder`; `Array.prototype.findIndex`
  followed by an indexed assignment is embedded as structural recursion that
  replaces the first record whose `id` matches.
* Identifier minting (`co_${Date.now()}_${random}`) involves the clock and
  `Math.random`, so the freshly minted id is likewise an explicit parameter.
-/

set_option allowUnsafeReducibility true
attribute [semireducible] Rat.mul Rat.inv Rat.add Rat.sub

namespace ChangeOrder

/-- Model of the platform builtin `String.prototype.trim`: strip leading and
trailing whitespace. -/
def jsTrim (s : String) : String :=
  String.mk (((s.data.dropWhile Char.isWhitespace).reverse.dropWhile Char.isWhitespace).reverse)

/-- `src/lib/change-order-store.ts`: `type TeamQueueStatus`. -/
inductive TeamQueueStatus where
  | NEW
  | IN_REVIEW
  | NEEDS_INFO
  | APPROVED
  | DENIED
deriving DecidableEq, Repr

/-- `src/lib/change-order-store.ts`: `type DecisionStatus`. -/
inductive DecisionStatus where
  | PENDING
  | NEEDS_INFO
  | APPROVED
  | DENIED
deriving DecidableEq, Repr

/-- `src/lib/change-order-store.ts`: `type DenialReasonCode`. -/
inductive DenialReasonCode where
  | MISSING_REQUIRED_INFO
  | INSUFFICIENT_PHOTO_EVIDENCE
  | OUTSIDE_24_HOUR_WINDOW
  | DUPLICATE_REQUEST
  | PRICING_NOT_JUSTIFIED
  | IN_SCOPE_OF_TURNKEY
  | OTHER
deriving DecidableEq, Repr

/-- `src/lib/change-order-store.ts`: `type DecisionEmailStatus`. -/
inductive DecisionEmailStatus where
  | PENDING
  | SENT
  | FAILED
deriving DecidableEq, Repr

/-- `src/lib/change-order-store.ts`: `type DecisionEmailMode`. -/
inductive DecisionEmailMode where
  | smtp
  | preview
deriving DecidableEq, Repr

/-- The `status` field of `StoredChangeOrder` (`"DRAFT" | "SUBMITTED" | "BLOCKED"`). -/
inductive SubmissionStatus where
  | DRAFT
  | SUBMITTED
  | BLOCKED
deriving DecidableEq, Repr

/-- `src/lib/change-order-schema.ts`: `lineItemSchema` (post-parse shape). -/
structure LineItem where
  description : String
  quantity : Rat
  unitPrice : Rat
deriving DecidableEq, Repr

/-- `src/lib/change-order-schema.ts`: `ChangeOrderInput` (post-parse shape of
`changeOrderInputSchema`). -/
structure ChangeOrderInput where
  projectId : String
  contractorName : String
  contractorEmail : String
  workPerformedAt : String
  scope : String
  quantity : Rat
  unitLabel : String
  materialCost : Rat
  laborCost : Rat
  additionalCharges : Rat
  additionalChargesReason : String
  whyNeeded : String
  whyNotInTurnKey : String
  photos : List String
  isMultiItem : Bool
  lineItems : List LineItem
deriving DecidableEq, Repr

/-- `src/lib/change-order-schema.ts`: `type ChecklistViolation`. -/
structure ChecklistViolation where
  code : String
  message : String
deriving DecidableEq, Repr

/-- Per-line-item loop of `evaluateChecklist`
(`for (const [index, lineItem] of input.lineItems.entries()) ...`), carrying the
0-based index `i`. -/
def lineItemViolationsFrom (i : Nat) : List LineItem → List ChecklistViolation
  | [] => []
  | li :: rest =>
    (if jsTrim li.description = "" ∨ li.quantity ≤ 0 ∨ li.unitPrice < 0 then
      [{ code := "line_item_" ++ toString (i + 1) ++ "_invalid",
         message := "Line item " ++ toString (i + 1) ++ " needs description, quantity, and unit price." }]
    else []) ++ lineItemViolationsFrom (i + 1) rest

/-- `src/lib/change-order-schema.ts`: `evaluateChecklist`.  The sequence of
`violations.push` calls is embedded as a concatenation of conditional
singleton lists, in source order. -/
def evaluateChecklist (input : ChangeOrderInput) : List ChecklistViolation :=
  let totalCost := input.materialCost + input.laborCost + input.additionalCharges
  (if jsTrim input.scope = "" then
    [{ code := "scope_missing", message := "Scope of change order is required." }] else []) ++
  (if input.quantity ≤ 0 then
    [{ code := "quantity_missing", message := "Quantity/area/amount must be greater than 0." }] else []) ++
  (if input.materialCost < 0 ∨ input.laborCost < 0 then
    [{ code := "pricing_invalid", message := "Labor and material pricing must be included and non-negative." }] else []) ++
  (if 0 < input.additionalCharges ∧ jsTrim input.additionalChargesReason = "" then
    [{ code := "additional_charges_reason_missing", message := "Additional charges must include a clear explanation." }] else []) ++
  (if 0 < input.quantity ∧ totalCost / input.quantity ≤ 0 then
    [{ code := "unit_price_unclear", message := "Price per unit must be determinable and greater than 0." }] else []) ++
  (if jsTrim input.whyNeeded = "" then
    [{ code := "justification_missing", message := "Include why this change order is needed." }] else []) ++
  (if jsTrim input.whyNotInTurnKey = "" then
    [{ code := "turnkey_justification_missing", message := "Include why this charge was not in turn-key pricing." }] else []) ++
  (if input.photos.length = 0 then
    [{ code := "photos_missing", message := "At least one supporting photo is required." }] else []) ++
  (if input.isMultiItem then
    (if input.lineItems.length < 2 then
      [{ code := "line_items_missing", message := "Multiple-item change orders require at least two line items." }] else []) ++
    lineItemViolationsFrom 0 input.lineItems
  else [])

/-- `src/lib/change-order-schema.ts`: `isPast24Hours`.  `new Date(iso).getTime()`
is the external parse result `workPerformedMs` (`none` models `NaN`), and
`Date.now()` is the parameter `nowMs`. -/
def isPast24Hours (nowMs : Int) (workPerformedMs : Option Int) : Bool :=
  match workPerformedMs with
  | none => true
  | some t => decide (nowMs - t > 24 * 60 * 60 * 1000)

/-- `src/lib/change-order-store.ts`: `type StoredChangeOrder`.  TypeScript
optional fields (`field?: T`) are embedded as `Option`. -/
structure StoredChangeOrder where
  id : String
  createdAt : String
  updatedAt : String
  submittedAt : Option String
  status : SubmissionStatus
  input : ChangeOrderInput
  blockingReasons : Option (List String)
  teamStatus : TeamQueueStatus
  reviewerNotes : String
  decisionStatus : DecisionStatus
  decisionAt : Option String
  decisionBy : Option String
  approvedAmount : Option Rat
  denialReasonCode : Option DenialReasonCode
  decisionExplanation : Option String
  contractorFacingMessage : Option String
  needsInfoChecklist : List String
  isFinalized : Bool
  decisionEmailStatus : DecisionEmailStatus
  decisionEmailSentAt : Option String
  decisionEmailTo : Option String
  decisionEmailSubject : Option String
  decisionEmailBody : Option String
  decisionEmailHtml : Option String
  decisionEmailError : Option String
  decisionEmailPreviewUrl : Option String
  decisionEmailMode : Option DecisionEmailMode
deriving DecidableEq, Repr

/-- `src/lib/change-order-store.ts`: `normalizeRecord`.  In the typed
embedding every `x ?? fallback` whose left side is a required field is the
identity (`undefined` is not representable), so only the `teamStatus`
renormalisation match remains; it is written out as in the source. -/
def normalizeRecord (record : StoredChangeOrder) : StoredChangeOrder :=
  { record with
    teamStatus :=
      match record.teamStatus with
      | .DENIED => .DENIED
      | .APPROVED => .APPROVED
      | .NEEDS_INFO => .NEEDS_INFO
      | .IN_REVIEW => .IN_REVIEW
      | .NEW => .NEW }

/-- `store.find((item) => item.id === id)`: first record whose id matches. -/
def findById (store : List StoredChangeOrder) (id : String) : Option StoredChangeOrder :=
  store.find? (fun item => item.id = id)

/-- `src/lib/change-order-store.ts`: `getChangeOrderById`. -/
def getChangeOrderById (store : List StoredChangeOrder) (id : String) : Option StoredChangeOrder :=
  (findById store id).map normalizeRecord

/-- `src/lib/change-order-store.ts`: `saveDraft`.  `nowIso` models the
`new Date().toISOString()` calls and `newId` the minted
`co_${Date.now()}_${...}` identifier; `store.push(record)` is an append.
Returns the created record and the new store. -/
def saveDraft (store : List StoredChangeOrder) (input : ChangeOrderInput)
    (nowIso newId : String) : StoredChangeOrder × List StoredChangeOrder :=
  let record : StoredChangeOrder :=
    { id := newId
      createdAt := nowIso
      updatedAt := nowIso
      submittedAt := none
      status := .DRAFT
      input := input
      blockingReasons := none
      teamStatus := .NEW
      reviewerNotes := ""
      decisionStatus := .PENDING
      decisionAt := none
      decisionBy := none
      approvedAmount := none
      denialReasonCode := none
      decisionExplanation := none
      contractorFacingMessage := none
      needsInfoChecklist := []
      isFinalized := false
      decisionEmailStatus := .PENDING
      decisionEmailSentAt := none
      decisionEmailTo := none
      decisionEmailSubject := none
      decisionEmailBody := none
      decisionEmailHtml := none
      decisionEmailError := none
      decisionEmailPreviewUrl := none
      decisionEmailMode := none }
  (record, store ++ [record])

/-- `src/lib/change-order-store.ts`: `saveSubmission`. -/
def saveSubmission (store : List StoredChangeOrder) (input : ChangeOrderInput)
    (nowIso newId : String) : StoredChangeOrder × List StoredChangeOrder :=
  let record : StoredChangeOrder :=
    { id := newId
      createdAt := nowIso
      updatedAt := nowIso
      submittedAt := some nowIso
      status := .SUBMITTED
      input := input
      blockingReasons := none
      teamStatus := .NEW
      reviewerNotes := ""
      decisionStatus := .PENDING
      decisionAt := none
      decisionBy := none
      approvedAmount := none
      denialReasonCode := none
      decisionExplanation := none
      contractorFacingMessage := none
      needsInfoChecklist := []
      isFinalized := false
      decisionEmailStatus := .PENDING
      decisionEmailSentAt := none
      decisionEmailTo := none
      decisionEmailSubject := none
      decisionEmailBody := none
      decisionEmailHtml := none
      decisionEmailError := none
      decisionEmailPreviewUrl := none
      decisionEmailMode := none }
  (record, store ++ [record])

/-- `src/lib/change-order-store.ts`: `saveBlocked`. -/
def saveBlocked (store : List StoredChangeOrder) (input : ChangeOrderInput)
    (blockingReasons : List String) (nowIso newId : String) :
    StoredChangeOrder × List StoredChangeOrder :=
  let record : StoredChangeOrder :=
    { id := newId
      createdAt := nowIso
      updatedAt := nowIso
      submittedAt := none
      status := .BLOCKED
      input := input
      blockingReasons := some blockingReasons
      teamStatus := .NEW
      reviewerNotes := ""
      decisionStatus := .PENDING
      decisionAt := none
      decisionBy := none
      approvedAmount := none
      denialReasonCode := none
      decisionExplanation := none
      contractorFacingMessage := none
      needsInfoChecklist := []
      isFinalized := false
      decisionEmailStatus := .PENDING
      decisionEmailSentAt := none
      decisionEmailTo := none
      decisionEmailSubject := none
      decisionEmailBody := none
      decisionEmailHtml := none
      decisionEmailError := none
      decisionEmailPreviewUrl := none
      decisionEmailMode := none }
  (record, store ++ [record])

/-- The `updates` argument of `updateTeamQueueItem`
(`{ teamStatus?: TeamQueueStatus; reviewerNotes?: string }`). -/
structure TeamQueueUpdates where
  teamStatus : Option TeamQueueStatus
  reviewerNotes : Option String
deriving DecidableEq, Repr

/-- The successful-lookup body of `updateTeamQueueItem`: build `next` from the
current record and the updates (`??` is `Option.getD`). -/
def updateTeamQueueRecord (nowIso : String) (current : StoredChangeOrder)
    (updates : TeamQueueUpdates) : StoredChangeOrder :=
  { current with
    teamStatus := updates.teamStatus.getD current.teamStatus
    reviewerNotes := updates.reviewerNotes.getD current.reviewerNotes
    updatedAt := nowIso }

/-- `src/lib/change-order-store.ts`: `updateTeamQueueItem`.
`findIndex` / `store[index] = next` is embedded as recursion replacing the
first matching record; an already-finalized record is returned unchanged with
the store untouched. -/
def updateTeamQueueItem (nowIso : String) (store : List StoredChangeOrder)
    (id : String) (updates : TeamQueueUpdates) :
    Option StoredChangeOrder × List StoredChangeOrder :=
  match store with
  | [] => (none, [])
  | current :: rest =>
    if current.id = id then
      if current.isFinalized then (some current, current :: rest)
      else
        let next := updateTeamQueueRecord nowIso current updates
        (some next, next :: rest)
    else
      let p := updateTeamQueueItem nowIso rest id updates
      (p.1, current :: p.2)

/-- The tagged decision union `DecisionInput` of `src/lib/change-order-store.ts`. -/
inductive DecisionInput where
  | needsInfo (decidedBy : String) (decisionExplanation : String)
      (contractorFacingMessage : Option String) (needsInfoChecklist : List String)
  | approve (decidedBy : String) (approvedAmount : Rat) (decisionExplanation : String)
      (contractorFacingMessage : Option String)
  | deny (decidedBy : String) (denialReasonCode : DenialReasonCode)
      (decisionExplanation : String) (contractorFacingMessage : Option String)
deriving DecidableEq, Repr

/-- `decision.decidedBy` (common field of the union). -/
def DecisionInput.decidedBy : DecisionInput → String
  | .needsInfo d _ _ _ => d
  | .approve d _ _ _ => d
  | .deny d _ _ _ => d

/-- `decision.decisionExplanation` (common field of the union). -/
def DecisionInput.decisionExplanation : DecisionInput → String
  | .needsInfo _ e _ _ => e
  | .approve _ _ e _ => e
  | .deny _ _ e _ => e

/-- `decision.contractorFacingMessage` (common optional field of the union). -/
def DecisionInput.contractorFacingMessage : DecisionInput → Option String
  | .needsInfo _ _ m _ => m
  | .approve _ _ _ m => m
  | .deny _ _ _ m => m

/-- HTML-special characters, named to keep character literals unambiguous. -/
def ampChar : Char := Char.ofNat 38

/-- The character `<`. -/
def ltChar : Char := Char.ofNat 60

/-- The character `>`. -/
def gtChar : Char := Char.ofNat 62

/-- The double-quote character. -/
def quotChar : Char := Char.ofNat 34

/-- The single-quote character. -/
def aposChar : Char := Char.ofNat 39

/-- `value.replaceAll(c, rep)` for a single-character search string, at the
character-list level: every occurrence of `c` is replaced by `rep`. -/
def replaceAllChar : List Char → Char → List Char → List Char
  | [], _, _ => []
  | d :: rest, c, rep => (if d = c then rep else [d]) ++ replaceAllChar rest c rep

/-- `src/lib/change-order-store.ts`: `escapeHtml` — the five chained
`replaceAll` calls, in source order (each search string is one character). -/
def escapeHtml (value : String) : String :=
  let s1 := replaceAllChar value.data ampChar "&amp;".data
  let s2 := replaceAllChar s1 ltChar "&lt;".data
  let s3 := replaceAllChar s2 gtChar "&gt;".data
  let s4 := replaceAllChar s3 quotChar "&quot;".data
  let s5 := replaceAllChar s4 aposChar "&#39;".data
  String.mk s5

/-- The literal string of a `DenialReasonCode` value. -/
def DenialReasonCode.label : DenialReasonCode → String
  | .MISSING_REQUIRED_INFO => "MISSING_REQUIRED_INFO"
  | .INSUFFICIENT_PHOTO_EVIDENCE => "INSUFFICIENT_PHOTO_EVIDENCE"
  | .OUTSIDE_24_HOUR_WINDOW => "OUTSIDE_24_HOUR_WINDOW"
  | .DUPLICATE_REQUEST => "DUPLICATE_REQUEST"
  | .PRICING_NOT_JUSTIFIED => "PRICING_NOT_JUSTIFIED"
  | .IN_SCOPE_OF_TURNKEY => "IN_SCOPE_OF_TURNKEY"
  | .OTHER => "OTHER"

/-- `record.input.projectId || "your project"` (empty string is falsy). -/
def projectLabelOf (record : StoredChangeOrder) : String :=
  if record.input.projectId = "" then "your project" else record.input.projectId

/-- `record.input.contractorName || "Contractor"`. -/
def contractorNameOf (record : StoredChangeOrder) : String :=
  if record.input.contractorName = "" then "Contractor" else record.input.contractorName

/-- `record.denialReasonCode || "N/A"` (enum strings are never empty). -/
def denialCodeLabel (record : StoredChangeOrder) : String :=
  match record.denialReasonCode with
  | some c => c.label
  | none => "N/A"

/-- `record.contractorFacingMessage || ""` (absent or empty gives `""`). -/
def messageRawOf (record : StoredChangeOrder) : String :=
  record.contractorFacingMessage.getD ""

/-- Model of the platform builtin `Number.prototype.toFixed(2)`: round to the
nearest cent (half away from zero on the nonnegative amounts used here) and
render with two decimals. -/
def toFixed2 (q : Rat) : String :=
  let cents : Int := (q * 100 + 1 / 2).floor
  let sign := if cents < 0 then "-" else ""
  let a := cents.natAbs
  sign ++ toString (a / 100) ++ "." ++ (if a % 100 < 10 then "0" else "") ++ toString (a % 100)

/-- `record.approvedAmount?.toFixed(2) ?? "0.00"`. -/
def approvedAmountLabel (record : StoredChangeOrder) : String :=
  match record.approvedAmount with
  | some a => toFixed2 a
  | none => "0.00"

/-- The `accentColor` ternary chain of `buildDecisionEmailContent`. -/
def accentColorOf (ds : DecisionStatus) : String :=
  if ds = .DENIED then "#be123c" else if ds = .APPROVED then "#166534" else "#0f4f8b"

/-- The `baseHeader` template literal of `buildDecisionEmailContent`. -/
def baseHeaderHtml : String :=
  "\n    <div style=\"padding:16px 20px;background:#ffffff;border-bottom:1px solid #dbeafe;\">\n      <img src=\"cid:remi-logo@change-order\" alt=\"Remi\" style=\"height:24px;display:block;\" />\n    </div>\n  "

/-- The `baseFooter` template literal; it interpolates
`escapeHtml(projectLabel)`, passed here as `projectE`. -/
def baseFooterHtml (projectE : String) : String :=
  "\n    <div style=\"padding:14px 20px;border-top:1px solid #dbeafe;background:#f8fbff;color:#64748b;font-size:12px;line-height:1.5;\">\n      Remi Change Orders Team<br/>\n      This message was sent for project " ++ projectE ++ ".\n    </div>\n  "

/-- The local `wrapHtml` helper of `buildDecisionEmailContent` (its closure
over the escaped project label is the `projectE` argument). -/
def wrapHtml (projectE inner : String) : String :=
  "\n    <div style=\"background:#f2f7ff;padding:20px;font-family:Inter,Segoe UI,Arial,sans-serif;\">\n      <div style=\"max-width:640px;margin:0 auto;border:1px solid #dbeafe;border-radius:12px;overflow:hidden;background:#ffffff;\">\n        "
    ++ baseHeaderHtml
    ++ "\n        <div style=\"padding:20px;\">\n          "
    ++ inner
    ++ "\n        </div>\n        "
    ++ baseFooterHtml projectE
    ++ "\n      </div>\n    </div>\n  "

/-- The `messageBlock ? `<p ...>` : ""` ternary, identical in all three
branches of `buildDecisionEmailContent`. -/
def messageParagraphHtml (messageBlock : String) : String :=
  if messageBlock ≠ "" then
    "<p style=\"margin:0;color:#0f172a;font-size:14px;white-space:pre-wrap;\"><strong>Message from Remi:</strong><br/>"
      ++ messageBlock ++ "</p>"
  else ""

/-- Result triple of `buildDecisionEmailContent`. -/
structure EmailContent where
  subject : String
  body : String
  html : String
deriving DecidableEq, Repr

/-- `src/lib/change-order-store.ts`: `buildDecisionEmailContent`.  Template
literals become explicit concatenations; `escapeHtml` is applied exactly at
the interpolation sites where the source applies it. -/
def buildDecisionEmailContent (record : StoredChangeOrder) : EmailContent :=
  let projectLabel := projectLabelOf record
  let contractorName := contractorNameOf record
  let accentColor := accentColorOf record.decisionStatus
  let messageBlock := escapeHtml (messageRawOf record)
  if record.decisionStatus = .APPROVED then
    { subject := "Change order approved - " ++ projectLabel
      body :=
        "Hello " ++ contractorName ++ ","
          ++ "\n\nYour change order has been approved."
          ++ "\nProject: " ++ projectLabel
          ++ "\nApproved amount: $" ++ approvedAmountLabel record
          ++ (if messageRawOf record ≠ "" then "\n\nMessage from Remi:\n" ++ messageRawOf record else "")
          ++ "\n\nThank you,\nRemi Change Orders Team"
      html := wrapHtml (escapeHtml projectLabel)
        ("\n      <p style=\"margin:0 0 12px;color:#0f172a;font-size:16px;\">Hello "
          ++ escapeHtml contractorName
          ++ ",</p>\n      <p style=\"margin:0 0 14px;color:#0f172a;font-size:15px;\">\n        Your change order has been <strong style=\"color:"
          ++ accentColor
          ++ ";\">approved</strong>.\n      </p>\n      <div style=\"border:1px solid #dcfce7;background:#f0fdf4;border-radius:8px;padding:12px 14px;margin:0 0 14px;\">\n        <p style=\"margin:0;color:#14532d;font-size:14px;\"><strong>Project:</strong> "
          ++ escapeHtml projectLabel
          ++ "</p>\n        <p style=\"margin:8px 0 0;color:#14532d;font-size:14px;\"><strong>Approved amount:</strong> $"
          ++ approvedAmountLabel record
          ++ "</p>\n      </div>\n      "
          ++ messageParagraphHtml messageBlock
          ++ "\n    ") }
  else if record.decisionStatus = .DENIED then
    { subject := "Change order denied - " ++ projectLabel
      body :=
        "Hello " ++ contractorName ++ ","
          ++ "\n\nYour change order has been denied."
          ++ "\nProject: " ++ projectLabel
          ++ "\nReason: " ++ denialCodeLabel record
          ++ (if messageRawOf record ≠ "" then "\n\nMessage from Remi:\n" ++ messageRawOf record else "")
          ++ "\n\nThank you,\nRemi Change Orders Team"
      html := wrapHtml (escapeHtml projectLabel)
        ("\n      <p style=\"margin:0 0 12px;color:#0f172a;font-size:16px;\">Hello "
          ++ escapeHtml contractorName
          ++ ",</p>\n      <p style=\"margin:0 0 14px;color:#0f172a;font-size:15px;\">\n        Your change order has been <strong style=\"color:"
          ++ accentColor
          ++ ";\">denied</strong>.\n      </p>\n      <div style=\"border:1px solid #fecdd3;background:#fff1f2;border-radius:8px;padding:12px 14px;margin:0 0 14px;\">\n        <p style=\"margin:0;color:#9f1239;font-size:14px;\"><strong>Project:</strong> "
          ++ escapeHtml projectLabel
          ++ "</p>\n        <p style=\"margin:8px 0 0;color:#9f1239;font-size:14px;\"><strong>Reason code:</strong> "
          ++ escapeHtml (denialCodeLabel record)
          ++ "</p>\n      </div>\n      "
          ++ messageParagraphHtml messageBlock
          ++ "\n    ") }
  else
    let requestedItems :=
      if record.needsInfoChecklist.length > 0 then
        String.intercalate "\n" (record.needsInfoChecklist.map (fun line => "- " ++ line))
      else "- Additional details requested."
    let listHtml :=
      if record.needsInfoChecklist.length > 0 then
        "<ul style=\"margin:8px 0 0 18px;padding:0;color:#0f4f8b;font-size:14px;\">"
          ++ String.join (record.needsInfoChecklist.map
              (fun line => "<li style=\"margin:0 0 6px;\">" ++ escapeHtml line ++ "</li>"))
          ++ "</ul>"
      else "<p style=\"margin:8px 0 0;color:#0f4f8b;font-size:14px;\">Additional details requested.</p>"
    { subject := "More information needed - " ++ projectLabel
      body :=
        "Hello " ++ contractorName ++ ","
          ++ "\n\nWe need more information to review your change order."
          ++ "\nProject: " ++ projectLabel
          ++ "\n\nRequested items:\n" ++ requestedItems
          ++ (if messageRawOf record ≠ "" then "\n\nMessage from Remi:\n" ++ messageRawOf record else "")
          ++ "\n\nThank you,\nRemi Change Orders Team"
      html := wrapHtml (escapeHtml projectLabel)
        ("\n    <p style=\"margin:0 0 12px;color:#0f172a;font-size:16px;\">Hello "
          ++ escapeHtml contractorName
          ++ ",</p>\n    <p style=\"margin:0 0 14px;color:#0f172a;font-size:15px;\">\n      We need <strong style=\"color:"
          ++ accentColor
          ++ ";\">more information</strong> to review your change order.\n    </p>\n    <div style=\"border:1px solid #bfdbfe;background:#eff6ff;border-radius:8px;padding:12px 14px;margin:0 0 14px;\">\n      <p style=\"margin:0;color:#0f4f8b;font-size:14px;\"><strong>Project:</strong> "
          ++ escapeHtml projectLabel
          ++ "</p>\n      <p style=\"margin:8px 0 0;color:#0f4f8b;font-size:14px;\"><strong>Requested items:</strong></p>\n      "
          ++ listHtml
          ++ "\n    </div>\n    "
          ++ messageParagraphHtml messageBlock
          ++ "\n  ") }

/-- `src/lib/change-order-store.ts`: `prepareDecisionEmail`.  Note that
`decisionEmailMode` is not among the overwritten fields. -/
def prepareDecisionEmail (record : StoredChangeOrder) : StoredChangeOrder :=
  let toAddr := jsTrim record.input.contractorEmail
  let content := buildDecisionEmailContent record
  { record with
    decisionEmailStatus := .PENDING
    decisionEmailSentAt := none
    decisionEmailTo := some toAddr
    decisionEmailSubject := some content.subject
    decisionEmailBody := some content.body
    decisionEmailHtml := some content.html
    decisionEmailError := none
    decisionEmailPreviewUrl := none }

/-- The body of `applyTeamDecision` after a successful, non-finalized lookup:
the shared `next` assignment followed by the per-action updates and
`prepareDecisionEmail`. -/
def applyTeamDecisionRecord (nowIso : String) (current : StoredChangeOrder)
    (decision : DecisionInput) : StoredChangeOrder :=
  let next := { current with
    teamStatus := TeamQueueStatus.IN_REVIEW
    updatedAt := nowIso
    decisionAt := some nowIso
    decisionBy := some decision.decidedBy
    decisionExplanation := some decision.decisionExplanation
    contractorFacingMessage := some (decision.contractorFacingMessage.getD "") }
  match decision with
  | .needsInfo _ _ _ checklist =>
    prepareDecisionEmail { next with
      teamStatus := .NEEDS_INFO
      decisionStatus := .NEEDS_INFO
      needsInfoChecklist := checklist
      approvedAmount := none
      denialReasonCode := none
      isFinalized := false }
  | .approve _ amount _ _ =>
    prepareDecisionEmail { next with
      teamStatus := .APPROVED
      decisionStatus := .APPROVED
      approvedAmount := some amount
      denialReasonCode := none
      needsInfoChecklist := []
      isFinalized := true }
  | .deny _ code _ _ =>
    prepareDecisionEmail { next with
      teamStatus := .DENIED
      decisionStatus := .DENIED
      denialReasonCode := some code
      approvedAmount := none
      needsInfoChecklist := []
      isFinalized := true }

/-- `src/lib/change-order-store.ts`: `applyTeamDecision`.  Missing id gives
`(none, store)`; an already-finalized record is returned unchanged with the
store untouched; otherwise the first matching record is replaced. -/
def applyTeamDecision (nowIso : String) (store : List StoredChangeOrder)
    (id : String) (decision : DecisionInput) :
    Option StoredChangeOrder × List StoredChangeOrder :=
  match store with
  | [] => (none, [])
  | current :: rest =>
    if current.id = id then
      if current.isFinalized then (some current, current :: rest)
      else
        let next := applyTeamDecisionRecord nowIso current decision
        (some next, next :: rest)
    else
      let p := applyTeamDecision nowIso rest id decision
      (p.1, current :: p.2)

/-- The `delivery` argument of `updateDecisionEmailDelivery`. -/
structure DeliveryUpdate where
  status : DecisionEmailStatus
  error : Option String
  previewUrl : Option String
  sentAt : Option String
  mode : Option DecisionEmailMode
deriving DecidableEq, Repr

/-- The successful-lookup body of `updateDecisionEmailDelivery`: normalize the
current record and overwrite the delivery fields.  The two
`new Date().toISOString()` calls (default `sentAt` and `updatedAt`) are both
modelled by the single parameter `nowIso`. -/
def applyDeliveryRecord (nowIso : String) (current : StoredChangeOrder)
    (delivery : DeliveryUpdate) : StoredChangeOrder :=
  { normalizeRecord current with
    decisionEmailStatus := delivery.status
    decisionEmailSentAt := some (delivery.sentAt.getD nowIso)
    decisionEmailError := delivery.error
    decisionEmailPreviewUrl := delivery.previewUrl
    decisionEmailMode := delivery.mode
    updatedAt := nowIso }

/-- `src/lib/change-order-store.ts`: `updateDecisionEmailDelivery`.  No
finalization check: the overwrite happens unconditionally once the id
resolves. -/
def updateDecisionEmailDelivery (nowIso : String) (store : List StoredChangeOrder)
    (id : String) (delivery : DeliveryUpdate) :
    Option StoredChangeOrder × List StoredChangeOrder :=
  match store with
  | [] => (none, [])
  | current :: rest =>
    if current.id = id then
      let next := applyDeliveryRecord nowIso current delivery
      (some next, next :: rest)
    else
      let p := updateDecisionEmailDelivery nowIso rest id delivery
      (p.1, current :: p.2)

/-- Characters admitted by the local-part atom class of `strictEmailRegex`
(`[A-Za-z0-9!#$%&'*+/=?^_`{|}~-]`, the backtick/brace/quote members written
via `Char.ofNat`). -/
def isAtomChar (c : Char) : Bool :=
  c.isAlphanum ||
    ['!', '#', '$', '%', '&', Char.ofNat 39, '*', '+', '/', '=', '?', '^', '_',
      Char.ofNat 96, Char.ofNat 123, '|', Char.ofNat 125, '~', '-'].contains c

/-- Whether a character list contains two consecutive dots (the
`(?!.*\.\.)` negative lookahead of `strictEmailRegex`). -/
def hasDoubleDot : List Char → Bool
  | [] => false
  | [_] => false
  | c :: d :: rest => (c == '.' && d == '.') || hasDoubleDot (d :: rest)

/-- Whether the last character of a list is alphanumeric. -/
def lastIsAlphanum : List Char → Bool
  | [] => false
  | [c] => c.isAlphanum
  | _ :: c :: rest => lastIsAlphanum (c :: rest)

/-- Split a character list at every occurrence of the separator `c`
(the single-character case of `String.splitOn`, at the character level). -/
def splitOnChar (c : Char) : List Char → List (List Char)
  | [] => [[]]
  | d :: rest =>
    let r := splitOnChar c rest
    if d = c then [] :: r
    else
      match r with
      | [] => [[d]]
      | grp :: grps => (d :: grp) :: grps

/-- One domain label of `strictEmailRegex`:
`[A-Za-z0-9]([A-Za-z0-9-]{0,61}[A-Za-z0-9])?` — length 1..63, first and last
characters alphanumeric, interior alphanumeric or dash. -/
def labelOk (lab : List Char) : Bool :=
  decide (lab.length ≤ 63) &&
    (match lab with
     | [] => false
     | c :: cs =>
       c.isAlphanum && lastIsAlphanum (c :: cs) &&
         (c :: cs).all (fun d => d.isAlphanum || d == '-'))

/-- Executable form of `strictEmailRegex` from `src/lib/change-order-store.ts`:
no consecutive dots anywhere; exactly one `@`; local part a nonempty
dot-separated sequence of nonempty atoms over the atom class; domain at least
two labels, each matching `labelOk`. -/
def strictEmailMatches (s : String) : Bool :=
  !(hasDoubleDot s.data) &&
    (match splitOnChar '@' s.data with
     | [localPart, domainPart] =>
       !localPart.isEmpty &&
         (splitOnChar '.' localPart).all (fun atom => !atom.isEmpty && atom.all isAtomChar) &&
         (let labels := splitOnChar '.' domainPart
          decide (2 ≤ labels.length) && labels.all labelOk)
     | _ => false)

/-- `src/lib/change-order-store.ts`: `isValidEmail` (regex test over the
trimmed value). -/
def isValidEmail (value : String) : Bool :=
  strictEmailMatches (jsTrim value)

/-- `src/lib/change-order-store.ts`: `hasValidContractorEmail` (the `?? ""` is
an identity on the typed, always-present field). -/
def hasValidContractorEmail (record : StoredChangeOrder) : Bool :=
  isValidEmail record.input.contractorEmail

/-- The fixed lateness reason appended by the submit route. -/
def lateSubmissionMessage : String :=
  "This change order was submitted after 24 hours and cannot be finalized."

/-- Result of the submit route (after a successful schema parse). -/
inductive SubmitRouteResult where
  | blocked (changeOrder : StoredChangeOrder) (reasons : List String)
  | ok (changeOrder : StoredChangeOrder)
deriving DecidableEq, Repr

/-- `src/app/api/change-orders/submit/route.ts`: the `POST` handler after a
successful `changeOrderInputSchema.safeParse`.  `workPerformedMs` is the
platform parse of `input.workPerformedAt` and `nowMs` the clock used by
`isPast24Hours`; `nowIso`/`newId` feed record creation. -/
def submitRoute (store : List StoredChangeOrder) (input : ChangeOrderInput)
    (workPerformedMs : Option Int) (nowMs : Int) (nowIso newId : String) :
    SubmitRouteResult × List StoredChangeOrder :=
  let checklistViolations := (evaluateChecklist input).map (fun issue => issue.message)
  let isLate := isPast24Hours nowMs workPerformedMs
  let blockingReasons := checklistViolations ++ (if isLate then [lateSubmissionMessage] else [])
  if blockingReasons.length > 0 then
    let p := saveBlocked store input blockingReasons nowIso newId
    (.blocked p.1 blockingReasons, p.2)
  else
    let p := saveSubmission store input nowIso newId
    (.ok p.1, p.2)

/-- The combined blocking-reason list the submit route computes: checklist
violation messages in evaluation order, then the fixed lateness message when
`isPast24Hours` holds. -/
def submitReasons (input : ChangeOrderInput) (workPerformedMs : Option Int) (nowMs : Int) :
    List String :=
  (evaluateChecklist input).map (fun issue => issue.message) ++
    (if isPast24Hours nowMs workPerformedMs then [lateSubmissionMessage] else [])

/-- The decision route's request payload after `decisionSchema.safeParse`
succeeds, with zod defaults applied (`contractorFacingMessage` default `""` is
kept optional here to mirror the pre-default shape; `acknowledgeLateSubmission`
and `isLate` carry their post-default booleans). -/
inductive DecisionPayload where
  | needsInfo (decidedBy : String) (decisionExplanation : String)
      (contractorFacingMessage : Option String) (needsInfoChecklist : List String)
  | approve (decidedBy : String) (approvedAmount : Rat) (decisionExplanation : String)
      (contractorFacingMessage : Option String) (acknowledgeLateSubmission : Bool) (isLate : Bool)
  | deny (decidedBy : String) (denialReasonCode : DenialReasonCode)
      (decisionExplanation : String) (contractorFacingMessage : Option String)
deriving DecidableEq, Repr

/-- The `min(1)`/`positive()` constraints of `decisionSchema`
(`src/app/api/change-orders/[id]/decision/route.ts`): a payload outside them
fails `safeParse` and the route returns the invalid-payload error. -/
def decisionPayloadValid : DecisionPayload → Bool
  | .needsInfo decidedBy explanationText _ checklist =>
    decide (1 ≤ decidedBy.length) && decide (1 ≤ explanationText.length) &&
      decide (1 ≤ checklist.length) && checklist.all (fun s => decide (1 ≤ s.length))
  | .approve decidedBy amount explanationText _ _ _ =>
    decide (1 ≤ decidedBy.length) && decide (0 < amount) && decide (1 ≤ explanationText.length)
  | .deny decidedBy _ explanationText _ =>
    decide (1 ≤ decidedBy.length) && decide (1 ≤ explanationText.length)

/-- `parsed.data.action === "APPROVE" && parsed.data.isLate &&
!parsed.data.acknowledgeLateSubmission`. -/
def payloadLateUnacked : DecisionPayload → Bool
  | .approve _ _ _ _ ack late => late && !ack
  | _ => false

/-- The `applyTeamDecision` argument built by the route from the parsed
payload (dropping the APPROVE-only acknowledgment flags). -/
def DecisionPayload.toDecisionInput : DecisionPayload → DecisionInput
  | .needsInfo d e m cl => .needsInfo d e m cl
  | .approve d a e m _ _ => .approve d a e m
  | .deny d c e m => .deny d c e m

/-- Outcome reported by the external email transport
(`sendDecisionEmail` in `src/lib/email.ts`, outside the modelled core). -/
structure EmailSendOutcome where
  sent : Bool
  modeResult : Option DecisionEmailMode
  previewUrl : Option String
  errorText : Option String
deriving DecidableEq, Repr

/-- Responses of the decision route. -/
inductive DecisionRouteResult where
  | notFound
  | notSubmitted
  | invalidPayload
  | lateAckRequired
  | ok (changeOrder : StoredChangeOrder) (emailStatus : DecisionEmailStatus)
deriving DecidableEq, Repr

/-- `src/app/api/change-orders/[id]/decision/route.ts`: the `POST` handler.
Checks run in source order: lookup, submission-status gate, payload parse,
late-acknowledgment gate, `applyTeamDecision`, then email delivery (the
transport result is the external input `outcome`) recorded via
`updateDecisionEmailDelivery`. -/
def decisionRoutePost (store : List StoredChangeOrder) (id : String)
    (payload : DecisionPayload) (nowIso : String) (outcome : EmailSendOutcome) :
    DecisionRouteResult × List StoredChangeOrder :=
  match getChangeOrderById store id with
  | none => (.notFound, store)
  | some existing =>
    if existing.status ≠ SubmissionStatus.SUBMITTED then (.notSubmitted, store)
    else if !decisionPayloadValid payload then (.invalidPayload, store)
    else if payloadLateUnacked payload then (.lateAckRequired, store)
    else
      let p := applyTeamDecision nowIso store id payload.toDecisionInput
      match p.1 with
      | none => (.notFound, p.2)
      | some updated =>
        if !hasValidContractorEmail updated then
          let q := updateDecisionEmailDelivery nowIso p.2 id
            { status := .FAILED
              error := some "Invalid contractor email address."
              previewUrl := none
              sentAt := none
              mode := none }
          (.ok (q.1.getD updated) .FAILED, q.2)
        else
          let q := updateDecisionEmailDelivery nowIso p.2 id
            { status := if outcome.sent then .SENT else .FAILED
              error := outcome.errorText
              previewUrl := outcome.previewUrl
              sentAt := none
              mode := outcome.modeResult }
          (.ok (q.1.getD updated) (if outcome.sent then .SENT else .FAILED), q.2)

/-- Spec-side statement vocabulary: the `teamStatus` a successful decision
assigns (§4.2 of the spec). -/
def payloadTeamStatus : DecisionPayload → TeamQueueStatus
  | .needsInfo .. => .NEEDS_INFO
  | .approve .. => .APPROVED
  | .deny .. => .DENIED

/-- Spec-side statement vocabulary: the `decisionStatus` a successful decision
assigns. -/
def payloadDecisionStatus : DecisionPayload → DecisionStatus
  | .needsInfo .. => .NEEDS_INFO
  | .approve .. => .APPROVED
  | .deny .. => .DENIED

/-- Spec-side statement vocabulary: whether the decision finalizes the record. -/
def payloadFinalizes : DecisionPayload → Bool
  | .needsInfo .. => false
  | .approve .. => true
  | .deny .. => true

/-- The spec's finalization invariant (§3 of spec.md): `isFinalized` is true
exactly when `teamStatus` is APPROVED or DENIED. -/
abbrev recordInv (r : StoredChangeOrder) : Prop :=
  r.isFinalized = true ↔ (r.teamStatus = .APPROVED ∨ r.teamStatus = .DENIED)

/-- The finalization invariant over every record of the store. -/
abbrev storeInv (store : List StoredChangeOrder) : Prop :=
  ∀ r ∈ store, recordInv r

/-- Claim-side factoring of the HTML body produced by
`buildDecisionEmailContent`: a function of the decision status, the formatted
amount, and the ALREADY-ESCAPED renderings of the contractor-controlled
fields (project label, contractor name, denial code, checklist lines,
contractor-facing message).  It receives no record, so it can only embed
those fields through the escaped arguments. -/
def htmlTemplate (ds : DecisionStatus) (amountLabel projectE nameE denialE : String)
    (checklistE : List String) (messageE : String) : String :=
  let accentColor := accentColorOf ds
  if ds = .APPROVED then
    wrapHtml projectE
      ("\n      <p style=\"margin:0 0 12px;color:#0f172a;font-size:16px;\">Hello "
        ++ nameE
        ++ ",</p>\n      <p style=\"margin:0 0 14px;color:#0f172a;font-size:15px;\">\n        Your change order has been <strong style=\"color:"
        ++ accentColor
        ++ ";\">approved</strong>.\n      </p>\n      <div style=\"border:1px solid #dcfce7;background:#f0fdf4;border-radius:8px;padding:12px 14px;margin:0 0 14px;\">\n        <p style=\"margin:0;color:#14532d;font-size:14px;\"><strong>Project:</strong> "
        ++ projectE
        ++ "</p>\n        <p style=\"margin:8px 0 0;color:#14532d;font-size:14px;\"><strong>Approved amount:</strong> $"
        ++ amountLabel
        ++ "</p>\n      </div>\n      "
        ++ messageParagraphHtml messageE
        ++ "\n    ")
  else if ds = .DENIED then
    wrapHtml projectE
      ("\n      <p style=\"margin:0 0 12px;color:#0f172a;font-size:16px;\">Hello "
        ++ nameE
        ++ ",</p>\n      <p style=\"margin:0 0 14px;color:#0f172a;font-size:15px;\">\n        Your change order has been <strong style=\"color:"
        ++ accentColor
        ++ ";\">denied</strong>.\n      </p>\n      <div style=\"border:1px solid #fecdd3;background:#fff1f2;border-radius:8px;padding:12px 14px;margin:0 0 14px;\">\n        <p style=\"margin:0;color:#9f1239;font-size:14px;\"><strong>Project:</strong> "
        ++ projectE
        ++ "</p>\n        <p style=\"margin:8px 0 0;color:#9f1239;font-size:14px;\"><strong>Reason code:</strong> "
        ++ denialE
        ++ "</p>\n      </div>\n      "
        ++ messageParagraphHtml messageE
        ++ "\n    ")
  else
    let listHtml :=
      if checklistE.length > 0 then
        "<ul style=\"margin:8px 0 0 18px;padding:0;color:#0f4f8b;font-size:14px;\">"
          ++ String.join (checklistE.map (fun line => "<li style=\"margin:0 0 6px;\">" ++ line ++ "</li>"))
          ++ "</ul>"
      else "<p style=\"margin:8px 0 0;color:#0f4f8b;font-size:14px;\">Additional details requested.</p>"
    wrapHtml projectE
      ("\n    <p style=\"margin:0 0 12px;color:#0f172a;font-size:16px;\">Hello "
        ++ nameE
        ++ ",</p>\n    <p style=\"margin:0 0 14px;color:#0f172a;font-size:15px;\">\n      We need <strong style=\"color:"
        ++ accentColor
        ++ ";\">more information</strong> to review your change order.\n    </p>\n    <div style=\"border:1px solid #bfdbfe;background:#eff6ff;border-radius:8px;padding:12px 14px;margin:0 0 14px;\">\n      <p style=\"margin:0;color:#0f4f8b;font-size:14px;\"><strong>Project:</strong> "
        ++ projectE
        ++ "</p>\n      <p style=\"margin:8px 0 0;color:#0f4f8b;font-size:14px;\"><strong>Requested items:</strong></p>\n      "
        ++ listHtml
        ++ "\n    </div>\n    "
        ++ messageParagraphHtml messageE
        ++ "\n  ")

/-- Claim-side factoring of the plain-text body: the same function shape but
over the RAW (unescaped) contractor-controlled fields. -/
def bodyTemplate (ds : DecisionStatus) (amountLabel projectT nameT denialT : String)
    (checklist : List String) (messageT : String) : String :=
  if ds = .APPROVED then
    "Hello " ++ nameT ++ ","
      ++ "\n\nYour change order has been approved."
      ++ "\nProject: " ++ projectT
      ++ "\nApproved amount: $" ++ amountLabel
      ++ (if messageT ≠ "" then "\n\nMessage from Remi:\n" ++ messageT else "")
      ++ "\n\nThank you,\nRemi Change Orders Team"
  else if ds = .DENIED then
    "Hello " ++ nameT ++ ","
      ++ "\n\nYour change order has been denied."
      ++ "\nProject: " ++ projectT
      ++ "\nReason: " ++ denialT
      ++ (if messageT ≠ "" then "\n\nMessage from Remi:\n" ++ messageT else "")
      ++ "\n\nThank you,\nRemi Change Orders Team"
  else
    let requestedItems :=
      if checklist.length > 0 then
        String.intercalate "\n" (checklist.map (fun line => "- " ++ line))
      else "- Additional details requested."
    "Hello " ++ nameT ++ ","
      ++ "\n\nWe need more information to review your change order."
      ++ "\nProject: " ++ projectT
      ++ "\n\nRequested items:\n" ++ requestedItems
      ++ (if messageT ≠ "" then "\n\nMessage from Remi:\n" ++ messageT else "")
      ++ "\n\nThank you,\nRemi Change Orders Team"

/-- A complete, checklist-clean contractor input used as a concrete witness. -/
def sampleInput : ChangeOrderInput :=
  { projectId := "POC-DEMO-001"
    contractorName := "Ann Doe"
    contractorEmail := "ann@example.com"
    workPerformedAt := "2026-01-01T00:00:00.000Z"
    scope := "Replace drywall"
    quantity := 120
    unitLabel := "sq ft"
    materialCost := 10
    laborCost := 5
    additionalCharges := 0
    additionalChargesReason := ""
    whyNeeded := "Water damage"
    whyNotInTurnKey := "Discovered after demo"
    photos := ["photo-1"]
    isMultiItem := false
    lineItems := [] }

/-- A freshly submitted record used as a concrete witness. -/
def sampleSubmitted : StoredChangeOrder :=
  { id := "co1"
    createdAt := "2026-01-01T01:00:00.000Z"
    updatedAt := "2026-01-01T01:00:00.000Z"
    submittedAt := some "2026-01-01T01:00:00.000Z"
    status := .SUBMITTED
    input := sampleInput
    blockingReasons := none
    teamStatus := .NEW
    reviewerNotes := ""
    decisionStatus := .PENDING
    decisionAt := none
    decisionBy := none
    approvedAmount := none
    denialReasonCode := none
    decisionExplanation := none
    contractorFacingMessage := none
    needsInfoChecklist := []
    isFinalized := false
    decisionEmailStatus := .PENDING
    decisionEmailSentAt := none
    decisionEmailTo := none
    decisionEmailSubject := none
    decisionEmailBody := none
    decisionEmailHtml := none
    decisionEmailError := none
    decisionEmailPreviewUrl := none
    decisionEmailMode := none }

/-- An approved, finalized record used as a concrete witness. -/
def sampleFinalized : StoredChangeOrder :=
  { sampleSubmitted with
    teamStatus := .APPROVED
    decisionStatus := .APPROVED
    isFinalized := true
    approvedAmount := some 100 }

/-- A draft record used in the boundary counterexample. -/
def sampleDraft : StoredChangeOrder :=
  { sampleSubmitted with status := .DRAFT, submittedAt := none }

/-- A non-finalized record carrying stale delivery metadata, used in the
`decisionEmailMode` counterexample. -/
def sampleWithMode : StoredChangeOrder :=
  { sampleSubmitted with
    decisionEmailMode := some .preview
    decisionEmailStatus := .SENT
    decisionEmailSentAt := some "2026-01-01T02:00:00.000Z" }

/-- A concrete NEEDS_INFO decision. -/
def sampleNeedsInfoDecision : DecisionInput :=
  .needsInfo "Reviewer" "Photos unclear" none ["Add close-up photos"]

/-- A concrete, schema-valid NEEDS_INFO payload. -/
def sampleNeedsInfoPayload : DecisionPayload :=
  .needsInfo "Reviewer" "Photos unclear" none ["Add close-up photos"]

/-- A concrete transport outcome (successful preview-mode send). -/
def sampleOutcome : EmailSendOutcome :=
  { sent := true, modeResult := some .preview, previewUrl := some "http://preview", errorText := none }

/-! ## Helper lemmas -/

/-- `normalizeRecord` is the identity on typed records (every `??` fallback
hits an always-present field, and the `teamStatus` renormalisation fixes each
of the five constructors). -/
theorem normalizeRecord_eq (r : StoredChangeOrder) : normalizeRecord r = r := by
  obtain ⟨f1, f2, f3, f4, f5, f6, f7, ts, f9, f10, f11, f12, f13, f14, f15, f16, f17,
    f18, f19, f20, f21, f22, f23, f24, f25, f26, f27⟩ := r
  cases ts <;> rfl

/-- A decision application never changes the record id. -/
theorem applyTeamDecisionRecord_id (nowIso : String) (r : StoredChangeOrder)
    (d : DecisionInput) : (applyTeamDecisionRecord nowIso r d).id = r.id := by
  cases d <;> rfl

/-- A delivery update never changes the record id. -/
theorem applyDeliveryRecord_id (nowIso : String) (r : StoredChangeOrder)
    (dl : DeliveryUpdate) : (applyDeliveryRecord nowIso r dl).id = r.id := rfl

/-- Unfolded form of a delivery update, with the identity `normalizeRecord`
rewritten away. -/
theorem applyDeliveryRecord_eq (nowIso : String) (r : StoredChangeOrder)
    (dl : DeliveryUpdate) :
    applyDeliveryRecord nowIso r dl =
      { r with
        decisionEmailStatus := dl.status
        decisionEmailSentAt := some (dl.sentAt.getD nowIso)
        decisionEmailError := dl.error
        decisionEmailPreviewUrl := dl.previewUrl
        decisionEmailMode := dl.mode
        updatedAt := nowIso } := by
  unfold applyDeliveryRecord
  rw [normalizeRecord_eq]

/-- `applyTeamDecision` on a finalized record is a silent no-op. -/
theorem applyTeamDecision_finalized (nowIso : String) (store : List StoredChangeOrder)
    (id : String) (d : DecisionInput) (r : StoredChangeOrder)
    (hfind : findById store id = some r) (hfin : r.isFinalized = true) :
    applyTeamDecision nowIso store id d = (some r, store) := by
  induction store with
  | nil => simp [findById] at hfind
  | cons x rest ih =>
    by_cases hx : x.id = id
    · have hr : x = r := by simpa [findById, List.find?, hx] using hfind
      subst hr
      simp [applyTeamDecision, hx, hfin]
    · have hfind' : findById rest id = some r := by
        simpa [findById, List.find?, hx] using hfind
      simp [applyTeamDecision, hx, ih hfind']

/-- `updateTeamQueueItem` on a finalized record is a silent no-op. -/
theorem updateTeamQueueItem_finalized (nowIso : String) (store : List StoredChangeOrder)
    (id : String) (u : TeamQueueUpdates) (r : StoredChangeOrder)
    (hfind : findById store id = some r) (hfin : r.isFinalized = true) :
    updateTeamQueueItem nowIso store id u = (some r, store) := by
  induction store with
  | nil => simp [findById] at hfind
  | cons x rest ih =>
    by_cases hx : x.id = id
    · have hr : x = r := by simpa [findById, List.find?, hx] using hfind
      subst hr
      simp [updateTeamQueueItem, hx, hfin]
    · have hfind' : findById rest id = some r := by
        simpa [findById, List.find?, hx] using hfind
      simp [updateTeamQueueItem, hx, ih hfind']

/-- `applyTeamDecision` on a non-finalized record replaces the first matching
record with `applyTeamDecisionRecord` of it and returns it. -/
theorem applyTeamDecision_not_finalized (nowIso : String) (store : List StoredChangeOrder)
    (id : String) (d : DecisionInput) (r : StoredChangeOrder)
    (hfind : findById store id = some r) (hnf : r.isFinalized = false) :
    (applyTeamDecision nowIso store id d).1 = some (applyTeamDecisionRecord nowIso r d) ∧
      findById (applyTeamDecision nowIso store id d).2 id =
        some (applyTeamDecisionRecord nowIso r d) := by
  induction store with
  | nil => simp [findById] at hfind
  | cons x rest ih =>
    by_cases hx : x.id = id
    · have hr : x = r := by simpa [findById, List.find?, hx] using hfind
      subst hr
      have hid : (applyTeamDecisionRecord nowIso x d).id = id := by
        rw [applyTeamDecisionRecord_id]; exact hx
      simp [applyTeamDecision, hx, hnf, findById, List.find?, hid]
    · have hfind' : findById rest id = some r := by
        simpa [findById, List.find?, hx] using hfind
      have h := ih hfind'
      simp [applyTeamDecision, hx, findById, List.find?]
      exact ⟨h.1, h.2⟩

/-- `updateDecisionEmailDelivery` replaces the first matching record with
`applyDeliveryRecord` of it and returns it, with no finalization check. -/
theorem updateDecisionEmailDelivery_found (nowIso : String)
    (store : List StoredChangeOrder) (id : String) (dl : DeliveryUpdate)
    (r : StoredChangeOrder) (hfind : findById store id = some r) :
    (updateDecisionEmailDelivery nowIso store id dl).1 = some (applyDeliveryRecord nowIso r dl) ∧
      findById (updateDecisionEmailDelivery nowIso store id dl).2 id =
        some (applyDeliveryRecord nowIso r dl) := by
  induction store with
  | nil => simp [findById] at hfind
  | cons x rest ih =>
    by_cases hx : x.id = id
    · have hr : x = r := by simpa [findById, List.find?, hx] using hfind
      subst hr
      have hid : (applyDeliveryRecord nowIso x dl).id = id := by
        rw [applyDeliveryRecord_id]; exact hx
      simp [updateDecisionEmailDelivery, hx, findById, List.find?, hid]
    · have hfind' : findById rest id = some r := by
        simpa [findById, List.find?, hx] using hfind
      have h := ih hfind'
      simp [updateDecisionEmailDelivery, hx, findById, List.find?]
      exact ⟨h.1, h.2⟩

/-! ## Claims -/

/-- C6: `isPast24Hours` fails closed on an unparseable timestamp and is
otherwise true exactly when strictly more than 24 hours have elapsed; the
24h00m00s boundary is not late, 24h plus one second is. -/
theorem isPast24Hours_spec_C6 :
    (∀ nowMs : Int, isPast24Hours nowMs none = true) ∧
    (∀ nowMs t : Int, isPast24Hours nowMs (some t) = true ↔ 24 * 60 * 60 * 1000 < nowMs - t) ∧
    (∀ nowMs : Int, isPast24Hours nowMs (some (nowMs - 24 * 60 * 60 * 1000)) = false) ∧
    (∀ nowMs : Int, isPast24Hours nowMs (some (nowMs - (24 * 60 * 60 * 1000 + 1000))) = true) := by
  refine ⟨fun _ => rfl, fun nowMs t => ?_, fun nowMs => ?_, fun nowMs => ?_⟩
  · simp [isPast24Hours]
  · simp [isPast24Hours]
  · simp [isPast24Hours]

/-- C1: finalization is a one-way latch — on a stored record with
`isFinalized = true`, every `applyTeamDecision` and every
`updateTeamQueueItem` call returns the current record unchanged and leaves
the store unchanged. -/
theorem finalized_latch_C1 (nowIso : String) (store : List StoredChangeOrder)
    (id : String) (d : DecisionInput) (u : TeamQueueUpdates) (r : StoredChangeOrder)
    (hfind : findById store id = some r) (hfin : r.isFinalized = true) :
    applyTeamDecision nowIso store id d = (some r, store) ∧
      updateTeamQueueItem nowIso store id u = (some r, store) :=
  ⟨applyTeamDecision_finalized nowIso store id d r hfind hfin,
   updateTeamQueueItem_finalized nowIso store id u r hfind hfin⟩

/-- Witness for C1 at a concrete finalized record. -/
theorem finalized_latch_C1_witness :
    applyTeamDecision "t1" [sampleFinalized] "co1" sampleNeedsInfoDecision =
      (some sampleFinalized, [sampleFinalized]) ∧
    updateTeamQueueItem "t1" [sampleFinalized] "co1"
        { teamStatus := some .IN_REVIEW, reviewerNotes := some "late note" } =
      (some sampleFinalized, [sampleFinalized]) :=
  finalized_latch_C1 "t1" [sampleFinalized] "co1" sampleNeedsInfoDecision
    { teamStatus := some .IN_REVIEW, reviewerNotes := some "late note" }
    sampleFinalized (by decide) (by decide)

/-- C10: `updateDecisionEmailDelivery` always sets `decisionEmailSentAt` (to
the supplied `sentAt` when given, otherwise to the current time — also when
the new status is FAILED, since `d` is arbitrary) and overwrites
`decisionEmailError` / `decisionEmailPreviewUrl` / `decisionEmailMode` with
exactly the supplied optional values, clearing omitted ones to absent. -/
theorem delivery_overwrite_C10 (nowIso : String) (store : List StoredChangeOrder)
    (id : String) (dl : DeliveryUpdate) (r : StoredChangeOrder)
    (hfind : findById store id = some r) :
    ∃ r', (updateDecisionEmailDelivery nowIso store id dl).1 = some r' ∧
      r'.decisionEmailStatus = dl.status ∧
      r'.decisionEmailSentAt = some (dl.sentAt.getD nowIso) ∧
      r'.decisionEmailError = dl.error ∧
      r'.decisionEmailPreviewUrl = dl.previewUrl ∧
      r'.decisionEmailMode = dl.mode := by
  refine ⟨applyDeliveryRecord nowIso r dl,
    (updateDecisionEmailDelivery_found nowIso store id dl r hfind).1, ?_⟩
  simp [applyDeliveryRecord_eq]

/-- Witness for C10: a FAILED update with all optional fields omitted clears
the prior metadata of a finalized record and still stamps `sentAt`. -/
theorem delivery_overwrite_C10_witness :
    ∃ r', (updateDecisionEmailDelivery "t9" [sampleWithMode] "co1"
        { status := .FAILED, error := none, previewUrl := none, sentAt := none, mode := none }).1 = some r' ∧
      r'.decisionEmailStatus = .FAILED ∧
      r'.decisionEmailSentAt = some ((none : Option String).getD "t9") ∧
      r'.decisionEmailError = none ∧
      r'.decisionEmailPreviewUrl = none ∧
      r'.decisionEmailMode = none :=
  delivery_overwrite_C10 "t9" [sampleWithMode] "co1"
    { status := .FAILED, error := none, previewUrl := none, sentAt := none, mode := none }
    sampleWithMode (by decide)

/-- C8: two successive `updateDecisionEmailDelivery` calls on the same id are
last-write-wins — the surviving record carries exactly the second call's
delivery values — the operation succeeds with no regard to `isFinalized`
(no such hypothesis appears), and `updatedAt` is bumped on each call. -/
theorem delivery_last_write_wins_C8 (now1 now2 : String) (store : List StoredChangeOrder)
    (id : String) (d1 d2 : DeliveryUpdate) (r : StoredChangeOrder)
    (hfind : findById store id = some r) :
    ∃ r1 r2,
      (updateDecisionEmailDelivery now1 store id d1).1 = some r1 ∧ r1.updatedAt = now1 ∧
      (updateDecisionEmailDelivery now2 (updateDecisionEmailDelivery now1 store id d1).2 id d2).1
        = some r2 ∧
      findById (updateDecisionEmailDelivery now2
          (updateDecisionEmailDelivery now1 store id d1).2 id d2).2 id = some r2 ∧
      r2.decisionEmailStatus = d2.status ∧
      r2.decisionEmailError = d2.error ∧
      r2.decisionEmailPreviewUrl = d2.previewUrl ∧
      r2.decisionEmailMode = d2.mode ∧
      r2.decisionEmailSentAt = some (d2.sentAt.getD now2) ∧
      r2.updatedAt = now2 := by
  obtain ⟨h11, h12⟩ := updateDecisionEmailDelivery_found now1 store id d1 r hfind
  obtain ⟨h21, h22⟩ := updateDecisionEmailDelivery_found now2
    (updateDecisionEmailDelivery now1 store id d1).2 id d2 _ h12
  refine ⟨applyDeliveryRecord now1 r d1, applyDeliveryRecord now2 (applyDeliveryRecord now1 r d1) d2,
    h11, ?_, h21, h22, ?_⟩
  · simp [applyDeliveryRecord_eq]
  · simp [applyDeliveryRecord_eq]

/-- Witness for C8: two concrete calls on a finalized record, the second
overwriting every delivery field of the first. -/
theorem delivery_last_write_wins_C8_witness :
    ∃ r1 r2,
      (updateDecisionEmailDelivery "t5" [sampleFinalized] "co1"
          { status := .SENT, error := none, previewUrl := some "http://p1",
            sentAt := some "s1", mode := some .smtp }).1 = some r1 ∧ r1.updatedAt = "t5" ∧
      (updateDecisionEmailDelivery "t6" (updateDecisionEmailDelivery "t5" [sampleFinalized] "co1"
          { status := .SENT, error := none, previewUrl := some "http://p1",
            sentAt := some "s1", mode := some .smtp }).2 "co1"
          { status := .FAILED, error := some "smtp down", previewUrl := none,
            sentAt := none, mode := none }).1 = some r2 ∧
      findById (updateDecisionEmailDelivery "t6"
          (updateDecisionEmailDelivery "t5" [sampleFinalized] "co1"
            { status := .SENT, error := none, previewUrl := some "http://p1",
              sentAt := some "s1", mode := some .smtp }).2 "co1"
          { status := .FAILED, error := some "smtp down", previewUrl := none,
            sentAt := none, mode := none }).2 "co1" = some r2 ∧
      r2.decisionEmailStatus = .FAILED ∧
      r2.decisionEmailError = some "smtp down" ∧
      r2.decisionEmailPreviewUrl = none ∧
      r2.decisionEmailMode = none ∧
      r2.decisionEmailSentAt = some ((none : Option String).getD "t6") ∧
      r2.updatedAt = "t6" :=
  delivery_last_write_wins_C8 "t5" "t6" [sampleFinalized] "co1"
    { status := .SENT, error := none, previewUrl := some "http://p1",
      sentAt := some "s1", mode := some .smtp }
    { status := .FAILED, error := some "smtp down", previewUrl := none,
      sentAt := none, mode := none }
    sampleFinalized (by decide)

/-- C4: for every valid input, submit creates exactly one new record — BLOCKED
with `blockingReasons` equal to the combined reason list (checklist messages
in evaluation order, lateness message appended last) when that list is
non-empty, otherwise SUBMITTED with `submittedAt` set — appending it to the
store with the freshly minted id, so no existing record is mutated. -/
theorem submit_route_C4 (store : List StoredChangeOrder) (input : ChangeOrderInput)
    (workPerformedMs : Option Int) (nowMs : Int) (nowIso newId : String) :
    (submitReasons input workPerformedMs nowMs ≠ [] →
      ∃ rec, submitRoute store input workPerformedMs nowMs nowIso newId =
          (.blocked rec (submitReasons input workPerformedMs nowMs), store ++ [rec]) ∧
        rec.status = .BLOCKED ∧
        rec.blockingReasons = some (submitReasons input workPerformedMs nowMs) ∧
        rec.id = newId ∧ rec.submittedAt = none) ∧
    (submitReasons input workPerformedMs nowMs = [] →
      ∃ rec, submitRoute store input workPerformedMs nowMs nowIso newId =
          (.ok rec, store ++ [rec]) ∧
        rec.status = .SUBMITTED ∧ rec.submittedAt = some nowIso ∧
        rec.blockingReasons = none ∧ rec.id = newId) := by
  have hroute : submitRoute store input workPerformedMs nowMs nowIso newId =
      if 0 < (submitReasons input workPerformedMs nowMs).length then
        (.blocked (saveBlocked store input (submitReasons input workPerformedMs nowMs) nowIso newId).1
          (submitReasons input workPerformedMs nowMs),
         (saveBlocked store input (submitReasons input workPerformedMs nowMs) nowIso newId).2)
      else
        (.ok (saveSubmission store input nowIso newId).1,
         (saveSubmission store input nowIso newId).2) := rfl
  constructor
  · intro hne
    have hlen : 0 < (submitReasons input workPerformedMs nowMs).length :=
      List.length_pos.mpr hne
    refine ⟨(saveBlocked store input (submitReasons input workPerformedMs nowMs) nowIso newId).1,
      ?_, rfl, rfl, rfl, rfl⟩
    rw [hroute, if_pos hlen]
    rfl
  · intro heq
    have hlen : ¬ 0 < (submitReasons input workPerformedMs nowMs).length := by
      simp [heq]
    refine ⟨(saveSubmission store input nowIso newId).1, ?_, rfl, rfl, rfl, rfl⟩
    rw [hroute, if_neg hlen]
    rfl

/-- Witness for C4: the complete sample input with a timely timestamp yields a
SUBMITTED record appended to the empty store. -/
theorem submit_route_C4_witness :
    ∃ rec, submitRoute [] sampleInput (some 0) 1000 "t7" "co7" =
        (.ok rec, [] ++ [rec]) ∧
      rec.status = .SUBMITTED ∧ rec.submittedAt = some "t7" ∧
      rec.blockingReasons = none ∧ rec.id = "co7" :=
  (submit_route_C4 [] sampleInput (some 0) 1000 "t7" "co7").2 (by decide)

/-- Membership in a conditional singleton list gives the condition and the
element. -/
theorem mem_ite_singleton {α : Type} {P : Prop} [Decidable P] {v x : α}
    (h : v ∈ if P then [x] else []) : P ∧ v = x := by
  by_cases hP : P
  · rw [if_pos hP] at h
    exact ⟨hP, List.mem_singleton.mp h⟩
  · rw [if_neg hP] at h
    exact absurd h (List.not_mem_nil v)

/-- No string extending the `line_item_` prefix is the `unit_price_unclear`
code. -/
theorem line_item_code_ne (s t : String) :
    ("line_item_" ++ s) ++ t ≠ "unit_price_unclear" := by
  intro h
  have hd := congrArg String.data h
  rw [String.data_append, String.data_append] at hd
  rw [show "line_item_".data = ['l', 'i', 'n', 'e', '_', 'i', 't', 'e', 'm', '_'] from rfl,
    show "unit_price_unclear".data =
      ['u', 'n', 'i', 't', '_', 'p', 'r', 'i', 'c', 'e', '_', 'u', 'n', 'c', 'l', 'e', 'a', 'r']
      from rfl] at hd
  simp at hd

/-- Every violation emitted by the line-item loop carries a `line_item_`
code. -/
theorem mem_lineItemViolationsFrom {v : ChecklistViolation} :
    ∀ (i : Nat) (items : List LineItem), v ∈ lineItemViolationsFrom i items →
      ∃ n : Nat, v.code = ("line_item_" ++ toString (n + 1)) ++ "_invalid" := by
  intro i items
  induction items generalizing i with
  | nil => intro h; simp [lineItemViolationsFrom] at h
  | cons li rest ih =>
    intro h
    rw [lineItemViolationsFrom, List.mem_append] at h
    rcases h with h | h
    · obtain ⟨_, hv⟩ := mem_ite_singleton h
      exact ⟨i, by rw [hv]⟩
    · exact ih (i + 1) h

/-- C7: with `totalCost` being exactly the sum of material, labor and
additional charges, `evaluateChecklist` emits a `unit_price_unclear`
violation precisely when the quantity is positive and the per-unit cost is
non-positive. -/
theorem unit_price_unclear_iff_C7 (input : ChangeOrderInput) :
    (∃ v ∈ evaluateChecklist input, v.code = "unit_price_unclear") ↔
      (0 < input.quantity ∧
        (input.materialCost + input.laborCost + input.additionalCharges) / input.quantity ≤ 0) := by
  constructor
  · rintro ⟨v, hv, hcode⟩
    simp only [evaluateChecklist, List.mem_append] at hv
    rcases hv with ((((((((h | h) | h) | h) | h) | h) | h) | h) | h)
    · obtain ⟨_, hv⟩ := mem_ite_singleton h
      rw [hv] at hcode; exact absurd hcode (by decide)
    · obtain ⟨_, hv⟩ := mem_ite_singleton h
      rw [hv] at hcode; exact absurd hcode (by decide)
    · obtain ⟨_, hv⟩ := mem_ite_singleton h
      rw [hv] at hcode; exact absurd hcode (by decide)
    · obtain ⟨_, hv⟩ := mem_ite_singleton h
      rw [hv] at hcode; exact absurd hcode (by decide)
    · exact (mem_ite_singleton h).1
    · obtain ⟨_, hv⟩ := mem_ite_singleton h
      rw [hv] at hcode; exact absurd hcode (by decide)
    · obtain ⟨_, hv⟩ := mem_ite_singleton h
      rw [hv] at hcode; exact absurd hcode (by decide)
    · obtain ⟨_, hv⟩ := mem_ite_singleton h
      rw [hv] at hcode; exact absurd hcode (by decide)
    · by_cases hm : input.isMultiItem = true
      · rw [if_pos hm, List.mem_append] at h
        rcases h with h | h
        · obtain ⟨_, hv⟩ := mem_ite_singleton h
          rw [hv] at hcode; exact absurd hcode (by decide)
        · obtain ⟨n, hc⟩ := mem_lineItemViolationsFrom 0 input.lineItems h
          rw [hc] at hcode
          exact absurd hcode (line_item_code_ne _ _)
      · rw [if_neg hm] at h
        exact absurd h (List.not_mem_nil v)
  · rintro ⟨hq, hle⟩
    refine ⟨⟨"unit_price_unclear", "Price per unit must be determinable and greater than 0."⟩,
      ?_, rfl⟩
    simp only [evaluateChecklist, List.mem_append]
    refine Or.inl (Or.inl (Or.inl (Or.inl (Or.inr ?_))))
    rw [if_pos ⟨hq, hle⟩]
    exact List.mem_singleton.mpr rfl

/-- A decision application always re-establishes the finalization invariant
on the record it produces. -/
theorem applyTeamDecisionRecord_inv (nowIso : String) (r : StoredChangeOrder)
    (d : DecisionInput) : recordInv (applyTeamDecisionRecord nowIso r d) := by
  cases d <;> simp [recordInv, applyTeamDecisionRecord, prepareDecisionEmail]

/-- A delivery update touches neither `isFinalized` nor `teamStatus`, so it
preserves the finalization invariant. -/
theorem applyDeliveryRecord_inv (nowIso : String) (r : StoredChangeOrder)
    (dl : DeliveryUpdate) (h : recordInv r) :
    recordInv (applyDeliveryRecord nowIso r dl) := by
  rw [applyDeliveryRecord_eq]
  exact h

/-- C2 (amended): the finalization invariant `isFinalized ↔ teamStatus ∈
{APPROVED, DENIED}` holds for every record produced by the three creation
operations and is preserved by `applyTeamDecision` and
`updateDecisionEmailDelivery`; `updateTeamQueueItem` preserves it provided
the requested `teamStatus` is not APPROVED or DENIED. -/
theorem finalization_invariant_C2 :
    (∀ store input nowIso newId, storeInv store →
      storeInv (saveDraft store input nowIso newId).2) ∧
    (∀ store input nowIso newId, storeInv store →
      storeInv (saveSubmission store input nowIso newId).2) ∧
    (∀ store input reasons nowIso newId, storeInv store →
      storeInv (saveBlocked store input reasons nowIso newId).2) ∧
    (∀ nowIso store id u, u.teamStatus ≠ some TeamQueueStatus.APPROVED →
      u.teamStatus ≠ some TeamQueueStatus.DENIED →
      storeInv store → storeInv (updateTeamQueueItem nowIso store id u).2) ∧
    (∀ nowIso store id d, storeInv store → storeInv (applyTeamDecision nowIso store id d).2) ∧
    (∀ nowIso store id dl, storeInv store →
      storeInv (updateDecisionEmailDelivery nowIso store id dl).2) := by
  refine ⟨?_, ?_, ?_, ?_, ?_, ?_⟩
  · intro store input nowIso newId h r hr
    simp only [saveDraft, List.mem_append, List.mem_singleton] at hr
    rcases hr with hr | hr
    · exact h r hr
    · subst hr; simp [recordInv]
  · intro store input nowIso newId h r hr
    simp only [saveSubmission, List.mem_append, List.mem_singleton] at hr
    rcases hr with hr | hr
    · exact h r hr
    · subst hr; simp [recordInv]
  · intro store input reasons nowIso newId h r hr
    simp only [saveBlocked, List.mem_append, List.mem_singleton] at hr
    rcases hr with hr | hr
    · exact h r hr
    · subst hr; simp [recordInv]
  · intro nowIso store id u hA hD h
    induction store with
    | nil => intro r hr; simp [updateTeamQueueItem] at hr
    | cons x rest ih =>
      have hx0 : recordInv x := h x (by simp)
      have hrest : storeInv rest := fun r hr => h r (by simp [hr])
      by_cases hx : x.id = id
      · by_cases hfin : x.isFinalized = true
        · simpa [updateTeamQueueItem, hx, hfin] using h
        · have hstep : (updateTeamQueueItem nowIso (x :: rest) id u).2 =
              updateTeamQueueRecord nowIso x u :: rest := by
            simp [updateTeamQueueItem, hx, hfin]
          intro r hr
          rw [hstep] at hr
          rcases List.mem_cons.mp hr with hr | hr
          · subst hr
            have hxf : x.isFinalized = false := by
              cases hxb : x.isFinalized
              · rfl
              · exact absurd hxb hfin
            have hts : ¬ (x.teamStatus = .APPROVED ∨ x.teamStatus = .DENIED) := by
              intro hc
              rw [hx0.mpr hc] at hxf
              cases hxf
            constructor
            · intro hc
              exact absurd hc (by simp [updateTeamQueueRecord, hxf])
            · intro hc
              exfalso
              cases hu : u.teamStatus with
              | none =>
                simp only [updateTeamQueueRecord, hu, Option.getD_none] at hc
                exact hts hc
              | some t =>
                simp only [updateTeamQueueRecord, hu, Option.getD_some] at hc
                rcases hc with hc | hc
                · exact hA (by rw [hu, hc])
                · exact hD (by rw [hu, hc])
          · exact hrest r hr
      · intro r hr
        simp only [updateTeamQueueItem, hx, if_false, List.mem_cons] at hr
        rcases hr with hr | hr
        · subst hr; exact hx0
        · exact ih hrest r hr
  · intro nowIso store id d h
    induction store with
    | nil => intro r hr; simp [applyTeamDecision] at hr
    | cons x rest ih =>
      have hx0 : recordInv x := h x (by simp)
      have hrest : storeInv rest := fun r hr => h r (by simp [hr])
      by_cases hx : x.id = id
      · by_cases hfin : x.isFinalized = true
        · simpa [applyTeamDecision, hx, hfin] using h
        · have hstep : (applyTeamDecision nowIso (x :: rest) id d).2 =
              applyTeamDecisionRecord nowIso x d :: rest := by
            simp [applyTeamDecision, hx, hfin]
          intro r hr
          rw [hstep] at hr
          rcases List.mem_cons.mp hr with hr | hr
          · subst hr; exact applyTeamDecisionRecord_inv nowIso x d
          · exact hrest r hr
      · intro r hr
        simp only [applyTeamDecision, hx, if_false, List.mem_cons] at hr
        rcases hr with hr | hr
        · subst hr; exact hx0
        · exact ih hrest r hr
  · intro nowIso store id dl h
    induction store with
    | nil => intro r hr; simp [updateDecisionEmailDelivery] at hr
    | cons x rest ih =>
      have hx0 : recordInv x := h x (by simp)
      have hrest : storeInv rest := fun r hr => h r (by simp [hr])
      by_cases hx : x.id = id
      · have hstep : (updateDecisionEmailDelivery nowIso (x :: rest) id dl).2 =
            applyDeliveryRecord nowIso x dl :: rest := by
          simp [updateDecisionEmailDelivery, hx]
        intro r hr
        rw [hstep] at hr
        rcases List.mem_cons.mp hr with hr | hr
        · subst hr; exact applyDeliveryRecord_inv nowIso x dl hx0
        · exact hrest r hr
      · intro r hr
        simp only [updateDecisionEmailDelivery, hx, if_false, List.mem_cons] at hr
        rcases hr with hr | hr
        · subst hr; exact hx0
        · exact ih hrest r hr

/-- Counterexample for C2 as stated: `updateTeamQueueItem` given
`teamStatus = APPROVED` on a non-finalized record yields a record with
`teamStatus = APPROVED` but `isFinalized = false`, breaking the
biconditional. -/
theorem finalization_invariant_C2_counterexample :
    storeInv [sampleSubmitted] ∧
      ¬ storeInv (updateTeamQueueItem "t2" [sampleSubmitted] "co1"
        { teamStatus := some .APPROVED, reviewerNotes := none }).2 := by
  decide

/-- Witness for C2 at a concrete store and a benign queue update. -/
theorem finalization_invariant_C2_witness :
    storeInv (updateTeamQueueItem "t2" [sampleSubmitted] "co1"
      { teamStatus := some .IN_REVIEW, reviewerNotes := some "checking" }).2 :=
  finalization_invariant_C2.2.2.2.1 "t2" [sampleSubmitted] "co1"
    { teamStatus := some .IN_REVIEW, reviewerNotes := some "checking" }
    (by decide) (by decide) (by decide)

/-- The notification content depends on no field that `prepareDecisionEmail`
overwrites, so regenerating it from the prepared record gives the same
content. -/
theorem buildDecisionEmailContent_prepare (x : StoredChangeOrder) :
    buildDecisionEmailContent (prepareDecisionEmail x) = buildDecisionEmailContent x := rfl

/-- C3 (amended): a successful decision on a non-finalized record stores
notification content that is exactly `buildDecisionEmailContent` — a
deterministic pure function — of the post-transition record, resets
`decisionEmailStatus` to PENDING and clears `decisionEmailSentAt`,
`decisionEmailError` and `decisionEmailPreviewUrl`; `decisionEmailMode`
however retains its prior value. -/
theorem decision_email_reset_C3 (nowIso : String) (store : List StoredChangeOrder)
    (id : String) (d : DecisionInput) (r : StoredChangeOrder)
    (hfind : findById store id = some r) (hnf : r.isFinalized = false) :
    ∃ r', (applyTeamDecision nowIso store id d).1 = some r' ∧
      r'.decisionEmailStatus = .PENDING ∧
      r'.decisionEmailSentAt = none ∧
      r'.decisionEmailError = none ∧
      r'.decisionEmailPreviewUrl = none ∧
      r'.decisionEmailMode = r.decisionEmailMode ∧
      r'.decisionEmailSubject = some (buildDecisionEmailContent r').subject ∧
      r'.decisionEmailBody = some (buildDecisionEmailContent r').body ∧
      r'.decisionEmailHtml = some (buildDecisionEmailContent r').html := by
  refine ⟨applyTeamDecisionRecord nowIso r d,
    (applyTeamDecision_not_finalized nowIso store id d r hfind hnf).1, ?_⟩
  cases d
  all_goals
    simp only [applyTeamDecisionRecord]
    rw [buildDecisionEmailContent_prepare]
    exact ⟨rfl, rfl, rfl, rfl, rfl, rfl, rfl, rfl⟩

/-- Counterexample for C3 as stated: on a non-finalized record carrying
`decisionEmailMode = preview`, a decision leaves the mode in place rather
than clearing it. -/
theorem decision_email_reset_C3_counterexample :
    sampleWithMode.isFinalized = false ∧
      ((applyTeamDecision "t3" [sampleWithMode] "co1" sampleNeedsInfoDecision).1.map
        (fun r => r.decisionEmailMode)) = some (some .preview) := by
  decide

/-- Witness for C3 at a concrete record with stale delivery metadata. -/
theorem decision_email_reset_C3_witness :
    ∃ r', (applyTeamDecision "t3" [sampleWithMode] "co1" sampleNeedsInfoDecision).1 = some r' ∧
      r'.decisionEmailStatus = .PENDING ∧
      r'.decisionEmailSentAt = none ∧
      r'.decisionEmailError = none ∧
      r'.decisionEmailPreviewUrl = none ∧
      r'.decisionEmailMode = sampleWithMode.decisionEmailMode ∧
      r'.decisionEmailSubject = some (buildDecisionEmailContent r').subject ∧
      r'.decisionEmailBody = some (buildDecisionEmailContent r').body ∧
      r'.decisionEmailHtml = some (buildDecisionEmailContent r').html :=
  decision_email_reset_C3 "t3" [sampleWithMode] "co1" sampleNeedsInfoDecision
    sampleWithMode (by decide) (by decide)

/-- Once the decision route's gates pass, the response is `ok` and the
returned record differs from the `applyTeamDecision` result only in email
delivery fields: `teamStatus`, `decisionStatus` and `isFinalized` carry
through unchanged. -/
theorem decisionRoutePost_ok_fields (store : List StoredChangeOrder) (id : String)
    (payload : DecisionPayload) (nowIso : String) (outcome : EmailSendOutcome)
    (r updated : StoredChangeOrder)
    (hfind : findById store id = some r) (hs : r.status = .SUBMITTED)
    (hval : decisionPayloadValid payload = true)
    (hack : payloadLateUnacked payload = false)
    (happly1 : (applyTeamDecision nowIso store id payload.toDecisionInput).1 = some updated)
    (hstore2 : findById (applyTeamDecision nowIso store id payload.toDecisionInput).2 id
      = some updated) :
    ∃ c es store', decisionRoutePost store id payload nowIso outcome = (.ok c es, store') ∧
      c.teamStatus = updated.teamStatus ∧
      c.decisionStatus = updated.decisionStatus ∧
      c.isFinalized = updated.isFinalized := by
  have hex : getChangeOrderById store id = some r := by
    simp [getChangeOrderById, hfind, normalizeRecord_eq]
  cases hem : hasValidContractorEmail updated with
  | true =>
    obtain ⟨hq1, _⟩ := updateDecisionEmailDelivery_found nowIso
      (applyTeamDecision nowIso store id payload.toDecisionInput).2 id
      { status := if outcome.sent then .SENT else .FAILED
        error := outcome.errorText
        previewUrl := outcome.previewUrl
        sentAt := none
        mode := outcome.modeResult } updated hstore2
    have hroute : decisionRoutePost store id payload nowIso outcome =
        (.ok (applyDeliveryRecord nowIso updated
            { status := if outcome.sent then .SENT else .FAILED
              error := outcome.errorText
              previewUrl := outcome.previewUrl
              sentAt := none
              mode := outcome.modeResult })
          (if outcome.sent then .SENT else .FAILED),
         (updateDecisionEmailDelivery nowIso
            (applyTeamDecision nowIso store id payload.toDecisionInput).2 id
            { status := if outcome.sent then .SENT else .FAILED
              error := outcome.errorText
              previewUrl := outcome.previewUrl
              sentAt := none
              mode := outcome.modeResult }).2) := by
      simp [decisionRoutePost, hex, hs, hval, hack, happly1, hem, hq1]
    exact ⟨_, _, _, hroute, by simp [applyDeliveryRecord_eq],
      by simp [applyDeliveryRecord_eq], by simp [applyDeliveryRecord_eq]⟩
  | false =>
    obtain ⟨hq1, _⟩ := updateDecisionEmailDelivery_found nowIso
      (applyTeamDecision nowIso store id payload.toDecisionInput).2 id
      { status := .FAILED
        error := some "Invalid contractor email address."
        previewUrl := none
        sentAt := none
        mode := none } updated hstore2
    have hroute : decisionRoutePost store id payload nowIso outcome =
        (.ok (applyDeliveryRecord nowIso updated
            { status := .FAILED
              error := some "Invalid contractor email address."
              previewUrl := none
              sentAt := none
              mode := none })
          .FAILED,
         (updateDecisionEmailDelivery nowIso
            (applyTeamDecision nowIso store id payload.toDecisionInput).2 id
            { status := .FAILED
              error := some "Invalid contractor email address."
              previewUrl := none
              sentAt := none
              mode := none }).2) := by
      simp [decisionRoutePost, hex, hs, hval, hack, happly1, hem, hq1]
    exact ⟨_, _, _, hroute, by simp [applyDeliveryRecord_eq],
      by simp [applyDeliveryRecord_eq], by simp [applyDeliveryRecord_eq]⟩

/-- C5 (amended): at the decision route boundary every action — NEEDS_INFO
included — is rejected unless `submissionStatus = SUBMITTED` (DRAFT and
BLOCKED records never reach `applyTeamDecision` for any action); on a
SUBMITTED finalized record a valid decision passes the boundary but is
applied as a silent no-op (the decision fields are unchanged), and on a
SUBMITTED non-finalized record it is applied with the action's target
statuses. -/
theorem decision_boundary_C5 (store : List StoredChangeOrder) (id : String)
    (payload : DecisionPayload) (nowIso : String) (outcome : EmailSendOutcome)
    (r : StoredChangeOrder) (hfind : findById store id = some r) :
    (r.status ≠ .SUBMITTED →
      decisionRoutePost store id payload nowIso outcome = (.notSubmitted, store)) ∧
    (r.status = .SUBMITTED → r.isFinalized = true →
      decisionPayloadValid payload = true → payloadLateUnacked payload = false →
      ∃ c es store', decisionRoutePost store id payload nowIso outcome = (.ok c es, store') ∧
        c.teamStatus = r.teamStatus ∧ c.decisionStatus = r.decisionStatus ∧
        c.isFinalized = true) ∧
    (r.status = .SUBMITTED → r.isFinalized = false →
      decisionPayloadValid payload = true → payloadLateUnacked payload = false →
      ∃ c es store', decisionRoutePost store id payload nowIso outcome = (.ok c es, store') ∧
        c.teamStatus = payloadTeamStatus payload ∧
        c.decisionStatus = payloadDecisionStatus payload ∧
        c.isFinalized = payloadFinalizes payload) := by
  have hex : getChangeOrderById store id = some r := by
    simp [getChangeOrderById, hfind, normalizeRecord_eq]
  refine ⟨?_, ?_, ?_⟩
  · intro hs
    simp [decisionRoutePost, hex, hs]
  · intro hs hfin hval hack
    have hpair := applyTeamDecision_finalized nowIso store id payload.toDecisionInput r hfind hfin
    have happly1 : (applyTeamDecision nowIso store id payload.toDecisionInput).1 = some r := by
      rw [hpair]
    have hstore2 : findById (applyTeamDecision nowIso store id payload.toDecisionInput).2 id
        = some r := by
      rw [hpair]; exact hfind
    obtain ⟨c, es, store', hroute, ht, hd2, hf⟩ := decisionRoutePost_ok_fields store id payload
      nowIso outcome r r hfind hs hval hack happly1 hstore2
    exact ⟨c, es, store', hroute, ht, hd2, by rw [hf, hfin]⟩
  · intro hs hnf hval hack
    obtain ⟨h1, h2⟩ := applyTeamDecision_not_finalized nowIso store id
      payload.toDecisionInput r hfind hnf
    obtain ⟨c, es, store', hroute, ht, hd2, hf⟩ := decisionRoutePost_ok_fields store id payload
      nowIso outcome r (applyTeamDecisionRecord nowIso r payload.toDecisionInput)
      hfind hs hval hack h1 h2
    refine ⟨c, es, store', hroute, ?_, ?_, ?_⟩
    · rw [ht]; cases payload <;> rfl
    · rw [hd2]; cases payload <;> rfl
    · rw [hf]; cases payload <;> rfl

/-- Counterexample for C5 as stated: a valid NEEDS_INFO decision on a
non-finalized DRAFT record is rejected at the boundary with the
not-submitted error, not accepted. -/
theorem decision_boundary_C5_counterexample :
    sampleDraft.isFinalized = false ∧
      decisionRoutePost [sampleDraft] "co1" sampleNeedsInfoPayload "t4" sampleOutcome =
        (.notSubmitted, [sampleDraft]) := by
  decide

/-- Witness for C5 at a concrete SUBMITTED, non-finalized record receiving a
valid NEEDS_INFO decision. -/
theorem decision_boundary_C5_witness :
    ∃ c es store', decisionRoutePost [sampleSubmitted] "co1" sampleNeedsInfoPayload "t4"
        sampleOutcome = (.ok c es, store') ∧
      c.teamStatus = payloadTeamStatus sampleNeedsInfoPayload ∧
      c.decisionStatus = payloadDecisionStatus sampleNeedsInfoPayload ∧
      c.isFinalized = payloadFinalizes sampleNeedsInfoPayload :=
  (decision_boundary_C5 [sampleSubmitted] "co1" sampleNeedsInfoPayload "t4" sampleOutcome
    sampleSubmitted (by decide)).2.2 (by decide) (by decide) (by decide) (by decide)

/-- A character of a single-character `replaceAll` output comes from the
replacement, or is a character of the input other than the one replaced. -/
theorem mem_replaceAllChar {d c : Char} {rep : List Char} :
    ∀ s : List Char, d ∈ replaceAllChar s c rep → d ∈ rep ∨ (d ∈ s ∧ d ≠ c) := by
  intro s
  induction s with
  | nil => intro h; simp [replaceAllChar] at h
  | cons a as ih =>
    intro h
    rw [replaceAllChar, List.mem_append] at h
    rcases h with h | h
    · by_cases hac : a = c
      · rw [if_pos hac] at h
        exact Or.inl h
      · rw [if_neg hac] at h
        rw [List.mem_singleton.mp h]
        exact Or.inr ⟨List.mem_cons_self a as, hac⟩
    · rcases ih h with h | ⟨h1, h2⟩
      · exact Or.inl h
      · exact Or.inr ⟨List.mem_cons_of_mem a h1, h2⟩

/-- `escapeHtml` output never contains a raw less-than sign. -/
theorem escapeHtml_no_lt (s : String) : ltChar ∉ (escapeHtml s).data := by
  intro h
  have h4 := (mem_replaceAllChar _ h).resolve_left (by decide)
  have h3 := (mem_replaceAllChar _ h4.1).resolve_left (by decide)
  have h2 := (mem_replaceAllChar _ h3.1).resolve_left (by decide)
  have h1 := (mem_replaceAllChar _ h2.1).resolve_left (by decide)
  exact h1.2 rfl

/-- `escapeHtml` output never contains a raw greater-than sign. -/
theorem escapeHtml_no_gt (s : String) : gtChar ∉ (escapeHtml s).data := by
  intro h
  have h4 := (mem_replaceAllChar _ h).resolve_left (by decide)
  have h3 := (mem_replaceAllChar _ h4.1).resolve_left (by decide)
  have h2 := (mem_replaceAllChar _ h3.1).resolve_left (by decide)
  exact h2.2 rfl

/-- `escapeHtml` output never contains a raw double quote. -/
theorem escapeHtml_no_quot (s : String) : quotChar ∉ (escapeHtml s).data := by
  intro h
  have h4 := (mem_replaceAllChar _ h).resolve_left (by decide)
  have h3 := (mem_replaceAllChar _ h4.1).resolve_left (by decide)
  exact h3.2 rfl

/-- `escapeHtml` output never contains a raw single quote. -/
theorem escapeHtml_no_apos (s : String) : aposChar ∉ (escapeHtml s).data := by
  intro h
  have h4 := (mem_replaceAllChar _ h).resolve_left (by decide)
  exact h4.2 rfl

/-- C9: `escapeHtml` output contains none of the characters `<`, `>`, `"`,
`'`; the HTML body of `buildDecisionEmailContent` factors through
`htmlTemplate`, which receives the contractor-controlled fields (project
label, contractor name, denial code, checklist lines, contractor-facing
message) only in `escapeHtml`-escaped form, while the plain-text body
factors through `bodyTemplate` over the same fields unescaped. -/
theorem html_escaping_C9 :
    (∀ (s : String) (c : Char), c ∈ (escapeHtml s).data →
      c ≠ ltChar ∧ c ≠ gtChar ∧ c ≠ quotChar ∧ c ≠ aposChar) ∧
    (∀ r : StoredChangeOrder,
      (buildDecisionEmailContent r).html = htmlTemplate r.decisionStatus
        (approvedAmountLabel r) (escapeHtml (projectLabelOf r))
        (escapeHtml (contractorNameOf r)) (escapeHtml (denialCodeLabel r))
        (r.needsInfoChecklist.map escapeHtml) (escapeHtml (messageRawOf r)) ∧
      (buildDecisionEmailContent r).body = bodyTemplate r.decisionStatus
        (approvedAmountLabel r) (projectLabelOf r) (contractorNameOf r)
        (denialCodeLabel r) r.needsInfoChecklist (messageRawOf r)) := by
  constructor
  · intro s c hc
    exact ⟨fun heq => escapeHtml_no_lt s (heq ▸ hc),
      fun heq => escapeHtml_no_gt s (heq ▸ hc),
      fun heq => escapeHtml_no_quot s (heq ▸ hc),
      fun heq => escapeHtml_no_apos s (heq ▸ hc)⟩
  · intro r
    constructor
    · cases hds : r.decisionStatus <;>
        simp [buildDecisionEmailContent, htmlTemplate, hds, List.map_map, Function.comp_def]
    · cases hds : r.decisionStatus <;>
        simp [buildDecisionEmailContent, bodyTemplate, hds]

/-- Witness for C9: the character `x` survives escaping and is none of the
four HTML-special characters. -/
theorem html_escaping_C9_witness :
    'x' ≠ ltChar ∧ 'x' ≠ gtChar ∧ 'x' ≠ quotChar ∧ 'x' ≠ aposChar :=
  html_escaping_C9.1 "x" 'x' (by decide)

end ChangeOrder
